import Mathlib

/-
Verification of the IIIF 2.x parameter interpreter (`src/lib/transform.js`).

The source module is embedded shallowly:
* parameter strings are `List Char`;
* JavaScript numbers are exact rationals (`ℚ`), with `JsVal` adding the
  `NaN` and `null` values that flow through this module (float rounding
  never matters on the inputs exercised here);
* the mutable `Operations` object is explicit state (`St`), and each
  parameter method returns the post-call state together with the thrown
  error, if any — a thrown `IIIFError` in JS leaves the partially mutated
  object behind, which the pair faithfully records;
* the external Sharp pipeline is an append-only directive list plus the
  `widthPre`/`heightPre` fields that `Operations.region` reads back.

The regular expressions of `Validators` are translated into executable
full-string matchers.  One point needs care: the source builds its float
pattern from the JS string literal '\d+(?:\.\d+)?', in which the escape
`\.` collapses to a plain `.` (the regex any-character metacharacter — the
`eslint-disable no-useless-escape` on that line records exactly this), so
the compiled pattern is `\d+(?:.\d+)?`.  The matchers below reproduce the
compiled pattern, not the intended one.
-/

namespace IIIF

/-- Parameter strings, as lists of characters. -/
abbrev Str := List Char

/-- Full-string match of the integer pattern `\d+` (at least one digit). -/
def digitsOnly (s : Str) : Bool := !s.isEmpty && s.all Char.isDigit

/-- JS regex line terminators, the only characters `.` does not match. -/
def isLineTerm (c : Char) : Bool :=
  c = '\n' || c = '\r' || c = '\u2028' || c = '\u2029'

/-- Full-string match of the float pattern as compiled, `\d+(?:.\d+)?`:
digits, optionally followed by ANY character (the unescaped dot) and more
digits. -/
def frMatch (s : Str) : Bool :=
  digitsOnly s ||
    (List.range s.length).any fun i =>
      digitsOnly (s.take i) &&
        (match s[i]? with
         | some c => !isLineTerm c
         | none => false) &&
        digitsOnly (s.drop (i + 1))

/-- Full-string match of `FR(,FR)*` with exactly `n + 1` float fields
(backtracking over the positions of the literal commas). -/
def frList : Nat → Str → Bool
  | 0, s => frMatch s
  | n + 1, s =>
      (List.range s.length).any fun i =>
        frMatch (s.take i) && s[i]? = some ',' && frList n (s.drop (i + 1))

/-- Split on the literal commas (the source splits on /\s*,\s*/, but no
string that reaches a split can carry whitespace next to a comma: every
character adjacent to a literal comma of a validated value is a digit). -/
def splitComma : Str → List Str
  | [] => [[]]
  | ',' :: rest => [] :: splitComma rest
  | c :: rest =>
      match splitComma rest with
      | [] => [[c]]
      | p :: ps => (c :: p) :: ps

/-- Full-string match of the pixel-region pattern `\d+,\d+,\d+,\d+`. -/
def ir4 (s : Str) : Bool :=
  match splitComma s with
  | [a, b, c, d] => digitsOnly a && digitsOnly b && digitsOnly c && digitsOnly d
  | _ => false

/-- `Validators.region`: `full|square|pct:FR,FR,FR,FR|IR,IR,IR,IR`. -/
def regionValid (s : Str) : Bool :=
  s = "full".toList || s = "square".toList ||
    (if s.take 4 = ['p', 'c', 't', ':'] then frList 3 (s.drop 4) else false) ||
    ir4 s

/-- `Validators.size`: `full|max|pct:FR|IR,|,IR|\!?IR,IR`. -/
def sizeValid (s : Str) : Bool :=
  s = "full".toList || s = "max".toList ||
    (if s.take 4 = ['p', 'c', 't', ':'] then frMatch (s.drop 4) else false) ||
    (match splitComma s with
     | [a, b] =>
         (digitsOnly a && b.isEmpty) || (a.isEmpty && digitsOnly b) ||
           (digitsOnly a && digitsOnly b)
     | _ => false) ||
    (if s.take 1 = ['!'] then
       match splitComma (s.drop 1) with
       | [a, b] => digitsOnly a && digitsOnly b
       | _ => false
     else false)

/-- `Validators.rotation`: `\!?FR`.  (`FR` starts with a digit, so the
optional `!` is consumed exactly when the string starts with it.) -/
def rotationValid (s : Str) : Bool :=
  if s.take 1 = ['!'] then frMatch (s.drop 1) else frMatch s

/-- `Validators.quality`: the four literal alternatives. -/
def qualityValid (s : Str) : Bool :=
  s = "color".toList || s = "gray".toList || s = "bitonal".toList ||
    s = "default".toList

/-- `Validators.format`: the five literal alternatives. -/
def formatValid (s : Str) : Bool :=
  s = "jpg".toList || s = "tif".toList || s = "gif".toList ||
    s = "png".toList || s = "webp".toList

/-- The five parameter kinds of `Validators`. -/
inductive ParamKind where
  | region | size | rotation | quality | format
deriving DecidableEq, Repr

/-- The kind's key, as it appears in error messages. -/
def ParamKind.name : ParamKind → Str
  | .region => "region".toList
  | .size => "size".toList
  | .rotation => "rotation".toList
  | .quality => "quality".toList
  | .format => "format".toList

/-- `validator(type).test(v)`: anchored full-string match of the kind's
pattern. -/
def validatorTest : ParamKind → Str → Bool
  | .region => regionValid
  | .size => sizeValid
  | .rotation => rotationValid
  | .quality => qualityValid
  | .format => formatValid

/-- The single error kind thrown by the module. -/
structure IIIFError where
  msg : Str
deriving DecidableEq, Repr

/-- Message of the error thrown by `validate`. -/
def invalidMsg (kind : ParamKind) (v : Str) : Str :=
  "Invalid ".toList ++ kind.name ++ ": ".toList ++ v

/-! ### JavaScript numbers -/

/-- Value of a digit string read in base 10. -/
def digitsToNat (s : Str) : Nat :=
  s.foldl (fun n c => 10 * n + (c.toNat - '0'.toNat)) 0

/-- Value of the digit string `b` read as the fractional part `0.b`. -/
def fracVal (b : Str) : ℚ :=
  (digitsToNat b : ℚ) / (10 ^ b.length)

/-- Exponent tail of a JS numeric string: optional sign, then digits. -/
def jsExpoTail (m : ℚ) (r : Str) : Option ℚ :=
  let sgn : ℤ := if r.take 1 = ['-'] then -1 else 1
  let r' := if r.take 1 = ['-'] || r.take 1 = ['+'] then r.drop 1 else r
  let e := r'.takeWhile Char.isDigit
  if e.isEmpty || !(r'.dropWhile Char.isDigit).isEmpty then none
  else some (m * (10 : ℚ) ^ (sgn * (digitsToNat e : ℤ)))

/-- After the mantissa: end of string, or an exponent part. -/
def jsExpo (m : ℚ) (r : Str) : Option ℚ :=
  match r with
  | [] => some m
  | c :: r2 => if c = 'e' || c = 'E' then jsExpoTail m r2 else none

/-- Mantissa of a JS numeric string: `a` is the leading digit run, `r`
what follows it. -/
def jsMantissa (a r : Str) : Option ℚ :=
  match r with
  | [] => if a.isEmpty then none else some (digitsToNat a)
  | '.' :: r2 =>
      let b := r2.takeWhile Char.isDigit
      let r3 := r2.dropWhile Char.isDigit
      if a.isEmpty && b.isEmpty then none
      else jsExpo ((digitsToNat a : ℚ) + fracVal b) r3
  | c :: r2 =>
      if (c = 'e' || c = 'E') && !a.isEmpty then jsExpoTail (digitsToNat a) r2
      else none

/-- `Number(s)` on the strings this module can produce (`none` is `NaN`).
The inputs reaching `Number` here never carry sign, whitespace, hex or
`Infinity` spellings — the grammars and capture groups exclude them — so
the decimal-literal forms modelled here are exhaustive. -/
def jsNumber (s : Str) : Option ℚ :=
  if s.isEmpty then some 0
  else jsMantissa (s.takeWhile Char.isDigit) (s.dropWhile Char.isDigit)

/-- `Math.round` on an exact rational: ties go toward positive infinity. -/
def qRound (q : ℚ) : ℤ := ⌊q + 1 / 2⌋

/-- A JS value as it flows through this module: a (finite) number, `NaN`
(also standing for `undefined`, which behaves as `NaN` in every arithmetic
or strict-equality position it reaches here), or `null`. -/
inductive JsVal where
  | num (q : ℚ)
  | nan
  | null
deriving DecidableEq, Repr

/-- JS `ToNumber` as needed for arithmetic: `null` converts to 0, `NaN`
stays undefined. -/
def JsVal.toNumber : JsVal → Option ℚ
  | .num q => some q
  | .nan => none
  | .null => some 0

/-- JS multiplication on `JsVal` (any `NaN` operand poisons the result). -/
def jsMul (a b : JsVal) : JsVal :=
  match a.toNumber, b.toNumber with
  | some x, some y => .num (x * y)
  | _, _ => .nan

/-- `Math.round` lifted to `JsVal`. -/
def jsRoundV (v : JsVal) : JsVal :=
  match v.toNumber with
  | some q => .num (qRound q)
  | none => .nan

/-- Template-literal rendering of the value interpolated in
`_sizePct`.  Only whole non-negative numbers occur there (`width` is
`Math.round` of a positive product); the other branches are written for
totality. -/
def jsValToStr (v : JsVal) : Str :=
  match v with
  | .num q =>
      if q.den = 1 ∧ 0 ≤ q.num then Nat.toDigits 10 q.num.toNat
      else ['N', 'a', 'N']
  | .nan => ['N', 'a', 'N']
  | .null => ['n', 'u', 'l', 'l']

/-! ### Pipeline, dimensions and interpreter state -/

/-- `fit` option of a resize directive. -/
inductive Fit where
  | cover | inside
deriving DecidableEq, Repr

/-- One abstract transform directive forwarded to the Sharp pipeline. -/
inductive Directive where
  | extract (left top width height : JsVal)
  | resize (width height : JsVal) (fit : Fit)
  | rotate (degrees : ℚ)
  | flipHorizontal
  | grayscale
  | threshold
  | toFormat (fmt : Str)
deriving DecidableEq, Repr

/-- The external Sharp pipeline: the ordered directive list, plus the
`options.widthPre`/`options.heightPre` fields that `Operations.region`
reads back.  Modelled from the spec: a crop records its post-crop
width/height there (§4.2 region step 4), and the fields start at Sharp's
-1 default, which `ifPositive` ignores. -/
structure Pipeline where
  directives : List Directive
  widthPre : JsVal
  heightPre : JsVal
deriving DecidableEq, Repr

/-- A fresh pipeline, as built by the `Operations` constructor. -/
def Pipeline.init : Pipeline := ⟨[], .num (-1), .num (-1)⟩

/-- Append one directive (resize, rotate, flop, …). -/
def Pipeline.push (p : Pipeline) (d : Directive) : Pipeline :=
  { p with directives := p.directives ++ [d] }

/-- `pipeline.extract(params)`: append the crop directive and record its
width/height in `widthPre`/`heightPre`. -/
def Pipeline.extractOp (p : Pipeline) (l t w h : JsVal) : Pipeline :=
  { directives := p.directives ++ [.extract l t w h], widthPre := w, heightPre := h }

/-- The tracked current dimensions (`this.dims`). -/
structure Dims where
  width : JsVal
  height : JsVal
deriving DecidableEq, Repr

/-- The `Operations` object's mutable state. -/
structure St where
  dims : Dims
  pipeline : Pipeline
deriving DecidableEq, Repr

/-- A fresh `Operations` state for a source image of the given pixel
dimensions, with the given (normally fresh) pipeline. -/
def mkSt (w h : ℕ) (p : Pipeline) : St :=
  ⟨⟨.num w, .num h⟩, p⟩

/-- `ifPositive(a, b)`: `a > 0 ? a : b` (false for `NaN` and `null`). -/
def ifPositive (a b : JsVal) : JsVal :=
  match a with
  | .num q => if 0 < q then .num q else b
  | _ => b

/-- The two assignments closing `Operations.region`. -/
def updateDims (st : St) : St :=
  { st with
    dims := ⟨ifPositive st.pipeline.widthPre st.dims.width,
             ifPositive st.pipeline.heightPre st.dims.height⟩ }

/-! ### The parameter methods

Each method takes and returns the whole object state; the second
component is the thrown `IIIFError`, if any.  A throw in JS leaves the
mutations already performed in place, so the state is returned even on
the error path. -/

/-- `Operations._regionSquare` (it reads `this.dims`; the dimensions are
always numeric — see `ifPositive` — so the catch-all branch is
unreachable). -/
def regionSquare (st : St) : St :=
  match st.dims.width, st.dims.height with
  | .num w, .num h =>
      if w = h then st
      else
        let side := min w h
        let offset : ℚ := ((|⌊(w - h) / 2⌋| : ℤ) : ℚ)
        let l := if w > h then offset else 0
        let t := if w > h then 0 else offset
        { st with
          pipeline := st.pipeline.extractOp (.num l) (.num t) (.num side) (.num side) }
  | _, _ => st

/-- `Operations._regionXYWH` on already-destructured values: the zero
check (`===` is false on `NaN`/`null`), then the crop. -/
def regionVals (l t w h : JsVal) (st : St) : St × Option IIIFError :=
  if w = JsVal.num 0 ∨ h = JsVal.num 0 then
    (st, some ⟨"Region width and height must both be > 0".toList⟩)
  else
    ({ st with pipeline := st.pipeline.extractOp l t w h }, none)

/-- `Number` on a split field (`NaN` when the parse fails). -/
def parseVal (p : Str) : JsVal :=
  match jsNumber p with
  | some q => JsVal.num q
  | none => JsVal.nan

/-- `Operations._regionXYWH` on a string: split on commas, `Number` each
field, destructure (a missing index is `undefined`, i.e. `.nan` here). -/
def regionXYWH (v : Str) (st : St) : St × Option IIIFError :=
  let vals := (splitComma v).map parseVal
  regionVals (vals.getD 0 .nan) (vals.getD 1 .nan) (vals.getD 2 .nan)
    (vals.getD 3 .nan) st

/-- `Operations._regionPct`: split the captured digits-and-commas string,
divide each field by 100, scale by the tracked dimensions, round, and
delegate.  A field missing from the destructuring is `undefined`, and
`Math.round(dims.x * undefined)` is `NaN`. -/
def regionPct (cap : Str) (st : St) : St × Option IIIFError :=
  let parts := (splitComma cap).map fun p =>
    match jsNumber p with
    | some q => JsVal.num (q / 100)
    | none => JsVal.nan
  let x := jsRoundV (jsMul st.dims.width (parts.getD 0 .nan))
  let y := jsRoundV (jsMul st.dims.height (parts.getD 1 .nan))
  let w := jsRoundV (jsMul st.dims.width (parts.getD 2 .nan))
  let h := jsRoundV (jsMul st.dims.height (parts.getD 3 .nan))
  regionVals x y w h st

/-- The capture of `v.match(/^pct:([\d,]+)/)` in `Operations.region`:
after a literal `pct:`, the longest run of digits and commas (at least
one character), with no end anchor. -/
def pctCapture (v : Str) : Option Str :=
  if v.take 4 = ['p', 'c', 't', ':'] then
    let cap := (v.drop 4).takeWhile fun c => c.isDigit || c = ','
    if cap.isEmpty then none else some cap
  else none

/-- `Operations.region`. -/
def region (v : Str) (st : St) : St × Option IIIFError :=
  if validatorTest .region v = false then (st, some ⟨invalidMsg .region v⟩)
  else
    let step :=
      if v = "full".toList then (st, none)
      else if v = "square".toList then (regionSquare st, none)
      else
        match pctCapture v with
        | some cap => regionPct cap st
        | none => regionXYWH v st
    match step with
    | (st1, some e) => (st1, some e)
    | (st1, none) => (updateDims st1, none)

/-- `Number` on a size field (`''` destructures to `null` first). -/
def sizeVal (p : Str) : JsVal :=
  if p.isEmpty then JsVal.null else parseVal p

/-- `Operations._sizeWH` on a string: note the leading `!`, strip it,
split on commas, map empty fields to `null` and the rest through
`Number`, zero-check, and emit the resize. -/
def sizeWH (v : Str) (st : St) : St × Option IIIFError :=
  let fit := if v.take 1 = ['!'] then Fit.inside else Fit.cover
  let v' := if v.take 1 = ['!'] then v.drop 1 else v
  let vals := (splitComma v').map sizeVal
  let w := vals.getD 0 .nan
  let h := vals.getD 1 .nan
  if w = JsVal.num 0 ∨ h = JsVal.num 0 then
    (st, some ⟨"Resize width and height must both be > 0".toList⟩)
  else
    ({ st with pipeline := st.pipeline.push (.resize w h fit) }, none)

/-- `Operations._sizePct`: `Number` the captured digits, reject `NaN` and
non-positive values, scale the tracked width, and delegate to `_sizeWH`
through the template string `` `${width},` ``. -/
def sizePct (cap : Str) (st : St) : St × Option IIIFError :=
  match jsNumber cap with
  | none => (st, some ⟨"Invalid resize %: ".toList ++ cap⟩)
  | some pct =>
      if pct ≤ 0 then (st, some ⟨"Invalid resize %: ".toList ++ cap⟩)
      else
        let width := jsRoundV (jsMul st.dims.width (.num (pct / 100)))
        sizeWH (jsValToStr width ++ [',']) st

/-- The capture of `v.match(/^pct:([\d]+)/)` in `Operations.size`: after
a literal `pct:`, the longest run of digits only (at least one). -/
def sizePctCapture (v : Str) : Option Str :=
  if v.take 4 = ['p', 'c', 't', ':'] then
    let cap := (v.drop 4).takeWhile Char.isDigit
    if cap.isEmpty then none else some cap
  else none

/-- `Operations.size`. -/
def size (v : Str) (st : St) : St × Option IIIFError :=
  if validatorTest .size v = false then (st, some ⟨invalidMsg .size v⟩)
  else if v = "full".toList ∨ v = "max".toList then (st, none)
  else
    match sizePctCapture v with
    | some cap => sizePct cap st
    | none => sizeWH v st

/-- `Operations.rotation`: validate; the literal string `'0'` is a no-op;
a leading `!` emits the flop (mirror) at once; only then is the numeric
remainder parsed, so a `NaN` aborts the call with the flop already
emitted. -/
def rotation (v : Str) (st : St) : St × Option IIIFError :=
  if validatorTest .rotation v = false then (st, some ⟨invalidMsg .rotation v⟩)
  else if v = ['0'] then (st, none)
  else
    let st1 :=
      if v.take 1 = ['!'] then
        { st with pipeline := st.pipeline.push .flipHorizontal }
      else st
    let rest := if v.take 1 = ['!'] then v.drop 1 else v
    match jsNumber rest with
    | none => (st1, some ⟨"Invalid rotation value: ".toList ++ v⟩)
    | some q => ({ st1 with pipeline := st1.pipeline.push (.rotate q) }, none)

/-- `Operations.quality`. -/
def quality (v : Str) (st : St) : St × Option IIIFError :=
  if validatorTest .quality v = false then (st, some ⟨invalidMsg .quality v⟩)
  else if v = "color".toList ∨ v = "default".toList then (st, none)
  else if v = "gray".toList then
    ({ st with pipeline := st.pipeline.push .grayscale }, none)
  else ({ st with pipeline := st.pipeline.push .threshold }, none)

/-- `Operations.format`. -/
def format (v : Str) (st : St) : St × Option IIIFError :=
  if validatorTest .format v = false then (st, some ⟨invalidMsg .format v⟩)
  else ({ st with pipeline := st.pipeline.push (.toFormat v) }, none)

/-! ### Spec-side definitions

These follow the words of the specification (not the source), for
comparison against the source-derived definitions above. -/

/-- Modelled from the spec: a non-negative decimal — digits, optionally a
literal dot and more digits (`F` of §4.1). -/
def decMatch (s : Str) : Bool :=
  digitsOnly s ||
    (List.range s.length).any fun i =>
      digitsOnly (s.take i) && s[i]? = some '.' && digitsOnly (s.drop (i + 1))

/-- Modelled from the spec: the declared rotation grammar `!?F` — an
optional leading `!` followed by a non-negative decimal. -/
def rotationDeclared (s : Str) : Bool :=
  if s.take 1 = ['!'] then decMatch (s.drop 1) else decMatch s

/-- The rational denoted by a decimal string (digits, optionally a dot
and more digits). -/
def decValue (s : Str) : ℚ :=
  match s.dropWhile Char.isDigit with
  | '.' :: b => (digitsToNat (s.takeWhile Char.isDigit) : ℚ) + fracVal b
  | _ => (digitsToNat s : ℚ)

/-- The `left` offset of the amended square-crop claim: `(w − h)/2` when
the width exceeds the height, else 0. -/
def squareLeft (w h : ℕ) : ℚ := if w > h then (((w - h) / 2 : ℕ) : ℚ) else 0

/-- The `top` offset of the amended square-crop claim: 0 when the width
exceeds the height, else `⌈(h − w)/2⌉ = (h − w + 1)/2`. -/
def squareTop (w h : ℕ) : ℚ := if w > h then 0 else (((h - w + 1) / 2 : ℕ) : ℚ)

/-- The concatenated pixel-form region string `a,b,c,d`. -/
def pixelStr (a b c d : Str) : Str :=
  a ++ [','] ++ b ++ [','] ++ c ++ [','] ++ d

/-! ### Helper lemmas -/

lemma digitsOnly_iff {s : Str} :
    digitsOnly s = true ↔ s ≠ [] ∧ ∀ c ∈ s, c.isDigit = true := by
  simp [digitsOnly, List.isEmpty_iff, List.all_eq_true]

lemma cons_ne_of_head {x y : Char} {xs ys : Str} (h : x ≠ y) :
    x :: xs ≠ y :: ys := by
  intro he
  injection he with h1 _
  exact h h1

lemma digit_ne_comma {c : Char} (h : c.isDigit = true) : c ≠ ',' := by
  rintro rfl
  exact absurd h (by decide)

lemma digits_nocomma {s : Str} (h : digitsOnly s = true) :
    ∀ c ∈ s, c ≠ ',' := fun c hc =>
  digit_ne_comma ((digitsOnly_iff.mp h).2 c hc)

lemma splitComma_nocomma {s : Str} (h : ∀ c ∈ s, c ≠ ',') :
    splitComma s = [s] := by
  induction s with
  | nil => rfl
  | cons c cs ih =>
      have hc : c ≠ ',' := h c (by simp)
      have h2 := ih fun y hy => h y (by simp [hy])
      simp [splitComma, hc, h2]

lemma splitComma_append {a r : Str} (h : ∀ c ∈ a, c ≠ ',') :
    splitComma (a ++ ',' :: r) = a :: splitComma r := by
  induction a with
  | nil => simp [splitComma]
  | cons c cs ih =>
      have hc : c ≠ ',' := h c (by simp)
      have h2 := ih fun y hy => h y (by simp [hy])
      simp [splitComma, hc, h2]

lemma splitComma_pixel {a b c d : Str} (ha : digitsOnly a = true)
    (hb : digitsOnly b = true) (hc : digitsOnly c = true)
    (hd : digitsOnly d = true) :
    splitComma (pixelStr a b c d) = [a, b, c, d] := by
  have e1 : pixelStr a b c d = a ++ ',' :: (b ++ ',' :: (c ++ ',' :: d)) := by
    simp [pixelStr]
  rw [e1, splitComma_append (digits_nocomma ha),
    splitComma_append (digits_nocomma hb), splitComma_append (digits_nocomma hc),
    splitComma_nocomma (digits_nocomma hd)]

lemma takeWhile_all {p : Char → Bool} {s : Str} (h : ∀ c ∈ s, p c = true) :
    s.takeWhile p = s ∧ s.dropWhile p = [] :=
  ⟨List.takeWhile_eq_self_iff.mpr h, List.dropWhile_eq_nil_iff.mpr h⟩

lemma takeWhile_stop {p : Char → Bool} {a r : Str} {x : Char}
    (ha : ∀ c ∈ a, p c = true) (hx : p x = false) :
    (a ++ x :: r).takeWhile p = a ∧ (a ++ x :: r).dropWhile p = x :: r := by
  induction a with
  | nil => simp [List.takeWhile_cons, List.dropWhile_cons, hx]
  | cons c cs ih =>
      have hc := ha c (by simp)
      have h2 := ih fun y hy => ha y (by simp [hy])
      simp [List.takeWhile_cons, List.dropWhile_cons, hc, h2.1, h2.2]

lemma jsNumber_digits {s : Str} (h : digitsOnly s = true) :
    jsNumber s = some ((digitsToNat s : ℚ)) := by
  obtain ⟨hne, hall⟩ := digitsOnly_iff.mp h
  have ht := takeWhile_all (p := Char.isDigit) hall
  rw [jsNumber, ht.1, ht.2]
  simp [jsMantissa, List.isEmpty_iff, hne]

lemma jsNumber_dec {a b : Str} (ha : digitsOnly a = true)
    (hb : digitsOnly b = true) :
    jsNumber (a ++ '.' :: b) = some ((digitsToNat a : ℚ) + fracVal b) := by
  obtain ⟨hane, haall⟩ := digitsOnly_iff.mp ha
  obtain ⟨hbne, hball⟩ := digitsOnly_iff.mp hb
  have ht := takeWhile_stop (p := Char.isDigit) (x := '.') (r := b) haall
    (by decide)
  have htb := takeWhile_all (p := Char.isDigit) hball
  rw [jsNumber, if_neg (by simp [List.isEmpty_iff, hane]), ht.1, ht.2]
  simp [jsMantissa, htb.1, htb.2, List.isEmpty_iff, hane, hbne, jsExpo]

lemma parseVal_digits {s : Str} (h : digitsOnly s = true) :
    parseVal s = JsVal.num (digitsToNat s) := by
  rw [parseVal, jsNumber_digits h]

lemma decMatch_cases {s : Str} (h : decMatch s = true) :
    digitsOnly s = true ∨
      ∃ a b, s = a ++ '.' :: b ∧ digitsOnly a = true ∧ digitsOnly b = true := by
  rw [decMatch, Bool.or_eq_true] at h
  rcases h with h | h
  · exact Or.inl h
  · right
    simp only [List.any_eq_true, List.mem_range, Bool.and_eq_true,
      decide_eq_true_eq] at h
    obtain ⟨i, hi, ⟨h1, h2⟩, h3⟩ := h
    refine ⟨s.take i, s.drop (i + 1), ?_, h1, h3⟩
    have hs := (List.take_append_drop i s).symm
    have hdrop : s.drop i = s[i] :: s.drop (i + 1) :=
      List.drop_eq_getElem_cons hi
    have hgi : s[i] = '.' := by
      have := List.getElem?_eq_getElem (l := s) hi
      rw [h2] at this
      exact (Option.some_injective _ this.symm)
    rw [hgi] at hdrop
    exact hs.trans (by rw [hdrop])

lemma decValue_digits {s : Str} (h : digitsOnly s = true) :
    decValue s = (digitsToNat s : ℚ) := by
  have ht := takeWhile_all (p := Char.isDigit) (digitsOnly_iff.mp h).2
  rw [decValue, ht.2]

lemma decValue_dec {a b : Str} (ha : digitsOnly a = true)
    (_hb : digitsOnly b = true) :
    decValue (a ++ '.' :: b) = (digitsToNat a : ℚ) + fracVal b := by
  have ht := takeWhile_stop (p := Char.isDigit) (x := '.') (r := b)
    (digitsOnly_iff.mp ha).2 (by decide)
  rw [decValue, ht.2, ht.1]
  rfl

lemma jsNumber_decMatch {s : Str} (h : decMatch s = true) :
    jsNumber s = some (decValue s) := by
  rcases decMatch_cases h with h1 | ⟨a, b, rfl, ha, hb⟩
  · rw [jsNumber_digits h1, decValue_digits h1]
  · rw [jsNumber_dec ha hb, decValue_dec ha hb]

lemma frMatch_of_decMatch {s : Str} (h : decMatch s = true) :
    frMatch s = true := by
  rw [decMatch, Bool.or_eq_true] at h
  rw [frMatch, Bool.or_eq_true]
  rcases h with h | h
  · exact Or.inl h
  · right
    simp only [List.any_eq_true, List.mem_range, Bool.and_eq_true,
      decide_eq_true_eq] at h ⊢
    obtain ⟨i, hi, ⟨h1, h2⟩, h3⟩ := h
    exact ⟨i, hi, ⟨h1, by rw [h2]; rfl⟩, h3⟩

lemma decMatch_head {s : Str} (h : decMatch s = true) :
    ∃ x xs, s = x :: xs ∧ x.isDigit = true := by
  rcases decMatch_cases h with h1 | ⟨a, b, hs, ha, _⟩
  · obtain ⟨hne, hall⟩ := digitsOnly_iff.mp h1
    obtain ⟨x, xs, rfl⟩ := List.exists_cons_of_ne_nil hne
    exact ⟨x, xs, rfl, hall x (by simp)⟩
  · obtain ⟨hne, hall⟩ := digitsOnly_iff.mp ha
    obtain ⟨x, xs, rfl⟩ := List.exists_cons_of_ne_nil hne
    exact ⟨x, xs ++ '.' :: b, by simp [hs], hall x (by simp)⟩

lemma pixelStr_cons {a : Str} {x : Char} {xs : Str} (hax : a = x :: xs)
    (b c d : Str) :
    pixelStr a b c d = x :: (xs ++ [','] ++ b ++ [','] ++ c ++ [','] ++ d) := by
  simp [pixelStr, hax]

lemma validatorTest_region_pixel {a b c d : Str} (ha : digitsOnly a = true)
    (hb : digitsOnly b = true) (hc : digitsOnly c = true)
    (hd : digitsOnly d = true) :
    validatorTest .region (pixelStr a b c d) = true := by
  have h4 : ir4 (pixelStr a b c d) = true := by
    rw [ir4, splitComma_pixel ha hb hc hd]
    simp [ha, hb, hc, hd]
  simp [validatorTest, regionValid, h4]

lemma region_pixel_eval {a b c d : Str} (ha : digitsOnly a = true)
    (hb : digitsOnly b = true) (hc : digitsOnly c = true)
    (hd : digitsOnly d = true) (st : St) :
    region (pixelStr a b c d) st =
      if digitsToNat c = 0 ∨ digitsToNat d = 0 then
        (st, some ⟨"Region width and height must both be > 0".toList⟩)
      else
        ({ dims := ⟨.num (digitsToNat c), .num (digitsToNat d)⟩,
           pipeline := ⟨st.pipeline.directives ++
               [.extract (.num (digitsToNat a)) (.num (digitsToNat b))
                 (.num (digitsToNat c)) (.num (digitsToNat d))],
             .num (digitsToNat c), .num (digitsToNat d)⟩ }, none) := by
  obtain ⟨hane, haall⟩ := digitsOnly_iff.mp ha
  obtain ⟨x, xs, hax⟩ := List.exists_cons_of_ne_nil hane
  have hdx : x.isDigit = true := haall x (by simp [hax])
  have hval := validatorTest_region_pixel ha hb hc hd
  have hfull : pixelStr a b c d ≠ "full".toList := by
    rw [pixelStr_cons hax]
    exact cons_ne_of_head (by rintro rfl; exact absurd hdx (by decide))
  have hsq : pixelStr a b c d ≠ "square".toList := by
    rw [pixelStr_cons hax]
    exact cons_ne_of_head (by rintro rfl; exact absurd hdx (by decide))
  have hpct : pctCapture (pixelStr a b c d) = none := by
    rw [pctCapture, if_neg]
    rw [pixelStr_cons hax, List.take_succ_cons]
    exact cons_ne_of_head (by rintro rfl; exact absurd hdx (by decide))
  have hxywh : regionXYWH (pixelStr a b c d) st =
      if digitsToNat c = 0 ∨ digitsToNat d = 0 then
        (st, some ⟨"Region width and height must both be > 0".toList⟩)
      else
        ({ st with pipeline := (st.pipeline.extractOp (.num (digitsToNat a))
            (.num (digitsToNat b)) (.num (digitsToNat c))
            (.num (digitsToNat d))) }, none) := by
    rw [regionXYWH, splitComma_pixel ha hb hc hd]
    simp only [List.map_cons, List.map_nil, parseVal_digits ha,
      parseVal_digits hb, parseVal_digits hc, parseVal_digits hd,
      List.getD_cons_zero, List.getD_cons_succ]
    rw [regionVals]
    have hcond : (JsVal.num ((digitsToNat c : ℚ)) = JsVal.num 0 ∨
        JsVal.num ((digitsToNat d : ℚ)) = JsVal.num 0) ↔
        (digitsToNat c = 0 ∨ digitsToNat d = 0) := by
      simp [Nat.cast_eq_zero]
    simp only [hcond]
  by_cases hz : digitsToNat c = 0 ∨ digitsToNat d = 0
  · simp only [region, hval, Bool.true_eq_false, if_false, if_neg hfull,
      if_neg hsq, hpct, hxywh, if_pos hz]
  · have hc0 : digitsToNat c ≠ 0 := fun h => hz (Or.inl h)
    have hd0 : digitsToNat d ≠ 0 := fun h => hz (Or.inr h)
    have hcpos : (0 : ℚ) < (digitsToNat c : ℚ) := by
      exact_mod_cast Nat.pos_of_ne_zero hc0
    have hdpos : (0 : ℚ) < (digitsToNat d : ℚ) := by
      exact_mod_cast Nat.pos_of_ne_zero hd0
    simp only [region, hval, Bool.true_eq_false, if_false, if_neg hfull,
      if_neg hsq, hpct, hxywh, if_neg hz]
    simp [updateDims, ifPositive, Pipeline.extractOp, hcpos, hdpos]

lemma frMatch_digits {s : Str} (h : digitsOnly s = true) : frMatch s = true := by
  rw [frMatch, h, Bool.true_or]

lemma frList_succ_append {a r : Str} (ha : digitsOnly a = true) {n : ℕ}
    (hr : frList n r = true) : frList (n + 1) (a ++ ',' :: r) = true := by
  rw [frList]
  simp only [List.any_eq_true, List.mem_range, Bool.and_eq_true,
    decide_eq_true_eq]
  refine ⟨a.length, ?_, ⟨?_, ?_⟩, ?_⟩
  · simp [List.length_append]
  · rw [List.take_left]
    exact frMatch_digits ha
  · rw [List.getElem?_append_right (Nat.le_refl _)]
    simp
  · have e : a ++ ',' :: r = (a ++ [',']) ++ r := by simp
    have el : a.length + 1 = (a ++ [',']).length := by simp
    rw [e, el, List.drop_left]
    exact hr

/-- The pixel value the code computes for an integer percentage field. -/
def pctPix (dim pct : ℕ) : ℤ := qRound ((dim : ℚ) * ((pct : ℚ) / 100))

lemma pctPix_nonneg (dim pct : ℕ) : 0 ≤ pctPix dim pct := by
  rw [pctPix, qRound]
  rw [Int.le_floor]
  positivity

lemma pctVal_digits {s : Str} (h : digitsOnly s = true) :
    (match jsNumber s with
      | some q => JsVal.num (q / 100)
      | none => JsVal.nan) = JsVal.num ((digitsToNat s : ℚ) / 100) := by
  rw [jsNumber_digits h]

lemma pixelStr_chars {a b c d : Str} (ha : digitsOnly a = true)
    (hb : digitsOnly b = true) (hc : digitsOnly c = true)
    (hd : digitsOnly d = true) :
    ∀ y ∈ pixelStr a b c d, (y.isDigit || y = ',') = true := by
  intro y hy
  simp only [pixelStr, List.mem_append, List.mem_singleton] at hy
  rcases hy with ((((((hy | hy) | hy) | hy) | hy) | hy) | hy) <;>
    first
      | (rw [Bool.or_eq_true]; left
         first
           | exact (digitsOnly_iff.mp ha).2 y hy
           | exact (digitsOnly_iff.mp hb).2 y hy
           | exact (digitsOnly_iff.mp hc).2 y hy
           | exact (digitsOnly_iff.mp hd).2 y hy)
      | (subst hy; decide)

lemma region_pct_eval {a b c d : Str} (ha : digitsOnly a = true)
    (hb : digitsOnly b = true) (hc : digitsOnly c = true)
    (hd : digitsOnly d = true) (W H : ℕ) (p : Pipeline) :
    region ("pct:".toList ++ pixelStr a b c d) (mkSt W H p) =
      if pctPix W (digitsToNat c) = 0 ∨ pctPix H (digitsToNat d) = 0 then
        (mkSt W H p, some ⟨"Region width and height must both be > 0".toList⟩)
      else
        ({ dims := ⟨.num ((pctPix W (digitsToNat c) : ℤ) : ℚ),
                    .num ((pctPix H (digitsToNat d) : ℤ) : ℚ)⟩,
           pipeline := ⟨p.directives ++
               [.extract (.num ((pctPix W (digitsToNat a) : ℤ) : ℚ))
                 (.num ((pctPix H (digitsToNat b) : ℤ) : ℚ))
                 (.num ((pctPix W (digitsToNat c) : ℤ) : ℚ))
                 (.num ((pctPix H (digitsToNat d) : ℤ) : ℚ))],
             .num ((pctPix W (digitsToNat c) : ℤ) : ℚ),
             .num ((pctPix H (digitsToNat d) : ℤ) : ℚ)⟩ }, none) := by
  obtain ⟨hane, haall⟩ := digitsOnly_iff.mp ha
  have hX : pixelStr a b c d ≠ [] := by
    obtain ⟨x, xs, hax⟩ := List.exists_cons_of_ne_nil hane
    rw [pixelStr_cons hax]
    exact List.cons_ne_nil x _
  have hcons : "pct:".toList ++ pixelStr a b c d =
      'p' :: ('c' :: ('t' :: (':' :: pixelStr a b c d))) := rfl
  have hval : validatorTest .region ("pct:".toList ++ pixelStr a b c d) = true := by
    have htake : ("pct:".toList ++ pixelStr a b c d).take 4 = ['p', 'c', 't', ':'] := by
      rw [show (4 : ℕ) = ("pct:".toList).length from rfl, List.take_left]
      rfl
    have hdrop : ("pct:".toList ++ pixelStr a b c d).drop 4 = pixelStr a b c d := by
      rw [show (4 : ℕ) = ("pct:".toList).length from rfl, List.drop_left]
    have hfr : frList 3 (pixelStr a b c d) = true := by
      have e1 : pixelStr a b c d = a ++ ',' :: (b ++ ',' :: (c ++ ',' :: d)) := by
        simp [pixelStr]
      rw [e1]
      exact frList_succ_append ha (frList_succ_append hb
        (frList_succ_append hc (frMatch_digits hd)))
    simp [validatorTest, regionValid, htake, hdrop, hfr]
  have hfull : "pct:".toList ++ pixelStr a b c d ≠ "full".toList := by
    rw [hcons]; exact cons_ne_of_head (by decide)
  have hsq : "pct:".toList ++ pixelStr a b c d ≠ "square".toList := by
    rw [hcons]; exact cons_ne_of_head (by decide)
  have hcap : pctCapture ("pct:".toList ++ pixelStr a b c d) =
      some (pixelStr a b c d) := by
    rw [pctCapture, if_pos]
    · have ht := List.takeWhile_eq_self_iff.mpr (pixelStr_chars ha hb hc hd)
      rw [show (4 : ℕ) = ("pct:".toList).length from rfl, List.drop_left]
      simp only [ht]
      rw [if_neg (by simp [List.isEmpty_iff, hX])]
    · rw [show (4 : ℕ) = ("pct:".toList).length from rfl, List.take_left]
      rfl
  have hpct : regionPct (pixelStr a b c d) (mkSt W H p) =
      if pctPix W (digitsToNat c) = 0 ∨ pctPix H (digitsToNat d) = 0 then
        (mkSt W H p, some ⟨"Region width and height must both be > 0".toList⟩)
      else
        ({ mkSt W H p with pipeline := (p.extractOp
            (.num ((pctPix W (digitsToNat a) : ℤ) : ℚ))
            (.num ((pctPix H (digitsToNat b) : ℤ) : ℚ))
            (.num ((pctPix W (digitsToNat c) : ℤ) : ℚ))
            (.num ((pctPix H (digitsToNat d) : ℤ) : ℚ))) }, none) := by
    rw [regionPct, splitComma_pixel ha hb hc hd]
    simp only [List.map_cons, List.map_nil, pctVal_digits ha, pctVal_digits hb,
      pctVal_digits hc, pctVal_digits hd, List.getD_cons_zero,
      List.getD_cons_succ]
    rw [regionVals]
    have hcond : (jsRoundV (jsMul (mkSt W H p).dims.width
          (JsVal.num ((digitsToNat c : ℚ) / 100))) = JsVal.num 0 ∨
        jsRoundV (jsMul (mkSt W H p).dims.height
          (JsVal.num ((digitsToNat d : ℚ) / 100))) = JsVal.num 0) ↔
        (pctPix W (digitsToNat c) = 0 ∨ pctPix H (digitsToNat d) = 0) := by
      simp [mkSt, jsMul, JsVal.toNumber, jsRoundV, pctPix, qRound,
        Int.cast_eq_zero]
    simp only [hcond]
    by_cases hz : pctPix W (digitsToNat c) = 0 ∨ pctPix H (digitsToNat d) = 0
    · rw [if_pos hz, if_pos hz]
    · rw [if_neg hz, if_neg hz]
      simp [mkSt, jsMul, JsVal.toNumber, jsRoundV, pctPix, qRound]
  by_cases hz : pctPix W (digitsToNat c) = 0 ∨ pctPix H (digitsToNat d) = 0
  · simp only [region, hval, Bool.true_eq_false, if_false, if_neg hfull,
      if_neg hsq, hcap, hpct, if_pos hz]
  · have hc0 : pctPix W (digitsToNat c) ≠ 0 := fun h => hz (Or.inl h)
    have hd0 : pctPix H (digitsToNat d) ≠ 0 := fun h => hz (Or.inr h)
    have hcpos : (0 : ℚ) < ((pctPix W (digitsToNat c) : ℤ) : ℚ) := by
      have := lt_of_le_of_ne (pctPix_nonneg W (digitsToNat c)) (Ne.symm hc0)
      exact_mod_cast this
    have hdpos : (0 : ℚ) < ((pctPix H (digitsToNat d) : ℤ) : ℚ) := by
      have := lt_of_le_of_ne (pctPix_nonneg H (digitsToNat d)) (Ne.symm hd0)
      exact_mod_cast this
    simp only [region, hval, Bool.true_eq_false, if_false, if_neg hfull,
      if_neg hsq, hcap, hpct, if_neg hz]
    simp [updateDims, ifPositive, Pipeline.extractOp, mkSt, hcpos, hdpos]

/-! ### Claim theorems -/

unseal Rat.add Rat.mul Rat.inv Rat.sub Rat.ofScientific in
/-- C5 counterexample: the zero-area iff is false on a grammar-accepted
percentage value with a decimal field.  `region('pct:50,50,0.5,50')` on
a 200×100 image throws the zero-area error and emits nothing, although
the rectangle of the claim's formula — width `round(200·0.5/100) = 1`,
height `round(100·50/100) = 50` — has neither side 0: the dispatch
capture `/^pct:([\d,]+)/` stops at the dot, keeping only `50,50,0`, and
the zero test runs on that truncated rectangle. -/
theorem c5_pct_decimal_counterexample :
    region ("pct:50,50,0.5,50".toList) (mkSt 200 100 Pipeline.init) =
      (mkSt 200 100 Pipeline.init,
        some ⟨"Region width and height must both be > 0".toList⟩) ∧
      qRound ((200 : ℚ) * ((1 / 2) / 100)) = 1 ∧
      qRound ((100 : ℚ) * (50 / 100)) = 50 := by decide

/-- C5 (amended): a region call in pixel form `X,Y,W,H`, or in
percentage form `pct:X,Y,W,H` whose four fields are plain integers (the
only percentage fields the dispatch capture `/^pct:([\d,]+)/` passes
through intact, and so the only ones whose rectangle the code computes
as the spec describes — see C4), fails with the zero-area error exactly
when the computed rectangle width or height is 0, and otherwise emits
`extract` of the computed rectangle; in particular `region('0,0,0,50')`
fails.  For a percentage value with a decimal field the capture
truncates at the dot and the zero test applies to the truncated
rectangle instead (see the counterexample above). -/
theorem c5_region_zero_area :
    (∀ a b c d : Str, digitsOnly a = true → digitsOnly b = true →
      digitsOnly c = true → digitsOnly d = true → ∀ st : St,
      region (pixelStr a b c d) st =
        if digitsToNat c = 0 ∨ digitsToNat d = 0 then
          (st, some ⟨"Region width and height must both be > 0".toList⟩)
        else
          ({ dims := ⟨.num (digitsToNat c), .num (digitsToNat d)⟩,
             pipeline := ⟨st.pipeline.directives ++
                 [.extract (.num (digitsToNat a)) (.num (digitsToNat b))
                   (.num (digitsToNat c)) (.num (digitsToNat d))],
               .num (digitsToNat c), .num (digitsToNat d)⟩ }, none)) ∧
    (∀ a b c d : Str, digitsOnly a = true → digitsOnly b = true →
      digitsOnly c = true → digitsOnly d = true → ∀ (W H : ℕ) (p : Pipeline),
      region ("pct:".toList ++ pixelStr a b c d) (mkSt W H p) =
        if pctPix W (digitsToNat c) = 0 ∨ pctPix H (digitsToNat d) = 0 then
          (mkSt W H p, some ⟨"Region width and height must both be > 0".toList⟩)
        else
          ({ dims := ⟨.num ((pctPix W (digitsToNat c) : ℤ) : ℚ),
                      .num ((pctPix H (digitsToNat d) : ℤ) : ℚ)⟩,
             pipeline := ⟨p.directives ++
                 [.extract (.num ((pctPix W (digitsToNat a) : ℤ) : ℚ))
                   (.num ((pctPix H (digitsToNat b) : ℤ) : ℚ))
                   (.num ((pctPix W (digitsToNat c) : ℤ) : ℚ))
                   (.num ((pctPix H (digitsToNat d) : ℤ) : ℚ))],
               .num ((pctPix W (digitsToNat c) : ℤ) : ℚ),
               .num ((pctPix H (digitsToNat d) : ℤ) : ℚ)⟩ }, none)) :=
  ⟨fun _ _ _ _ ha hb hc hd st => region_pixel_eval ha hb hc hd st,
   fun _ _ _ _ ha hb hc hd W H p => region_pct_eval ha hb hc hd W H p⟩

/-- C5 witness: `region('0,0,0,50')` on a 200×100 image fails with the
zero-area error and leaves the state unchanged. -/
theorem c5_witness :
    region ("0,0,0,50".toList) (mkSt 200 100 Pipeline.init) =
      (mkSt 200 100 Pipeline.init,
        some ⟨"Region width and height must both be > 0".toList⟩) := by
  have h := c5_region_zero_area.1 ("0".toList) ("0".toList) ("0".toList)
    ("50".toList) (by decide) (by decide) (by decide) (by decide)
    (mkSt 200 100 Pipeline.init)
  rw [if_pos (by decide)] at h
  exact h

/-- C10: a pixel-form region `X,Y,W,H` with positive `W`, `H` emits
`extract({left: X, top: Y, width: W, height: H})` verbatim, with no
clamping against the tracked dimensions (the result does not depend on
the state's dimensions at all), and updates the tracked dimensions to
`W`×`H`. -/
theorem c10_pixel_region_verbatim (a b c d : Str) (ha : digitsOnly a = true)
    (hb : digitsOnly b = true) (hc : digitsOnly c = true)
    (hd : digitsOnly d = true) (hc0 : digitsToNat c ≠ 0)
    (hd0 : digitsToNat d ≠ 0) (st : St) :
    region (pixelStr a b c d) st =
      (⟨⟨.num (digitsToNat c), .num (digitsToNat d)⟩,
        ⟨st.pipeline.directives ++
            [.extract (.num (digitsToNat a)) (.num (digitsToNat b))
              (.num (digitsToNat c)) (.num (digitsToNat d))],
          .num (digitsToNat c), .num (digitsToNat d)⟩⟩, none) := by
  rw [region_pixel_eval ha hb hc hd st,
    if_neg (by exact fun hz => hz.elim hc0 hd0)]

/-- C10 witness: `region('150,0,100,100')` on a 200×100 image emits the
rectangle verbatim although 150 + 100 exceeds the tracked width 200, and
the tracked dimensions become 100×100. -/
theorem c10_witness :
    region ("150,0,100,100".toList) (mkSt 200 100 Pipeline.init) =
      (⟨⟨.num 100, .num 100⟩,
        ⟨[.extract (.num 150) (.num 0) (.num 100) (.num 100)],
          .num 100, .num 100⟩⟩, none) ∧ 200 < 150 + 100 :=
  ⟨c10_pixel_region_verbatim ("150".toList) ("0".toList) ("100".toList)
      ("100".toList) (by decide) (by decide) (by decide) (by decide)
      (by decide) (by decide) (mkSt 200 100 Pipeline.init),
    by decide⟩

lemma rotation_bang_eval {rest : Str} (h : decMatch rest = true) (st : St) :
    rotation ('!' :: rest) st =
      ({ st with pipeline := ⟨st.pipeline.directives ++
          [.flipHorizontal, .rotate (decValue rest)], st.pipeline.widthPre,
          st.pipeline.heightPre⟩ }, none) := by
  have hv : validatorTest .rotation ('!' :: rest) = true := by
    simp only [validatorTest, rotationValid]
    rw [if_pos (show List.take 1 ('!' :: rest) = ['!'] from rfl)]
    exact frMatch_of_decMatch h
  have hz : ('!' :: rest : Str) ≠ ['0'] := by
    intro he
    injection he with h1 _
    exact absurd h1 (by decide)
  rw [rotation, if_neg (by simp [hv]), if_neg hz]
  simp [jsNumber_decMatch h, Pipeline.push]

lemma rotation_plain_eval {rest : Str} (h : decMatch rest = true)
    (hz : rest ≠ ['0']) (st : St) :
    rotation rest st =
      ({ st with pipeline := st.pipeline.push (.rotate (decValue rest)) },
        none) := by
  obtain ⟨x, xs, hx, hdx⟩ := decMatch_head h
  have hbang : rest.take 1 ≠ ['!'] := by
    rw [hx, List.take_succ_cons, List.take_zero]
    exact cons_ne_of_head (by rintro rfl; exact absurd hdx (by decide))
  have hv : validatorTest .rotation rest = true := by
    simp only [validatorTest, rotationValid]
    rw [if_neg hbang]
    exact frMatch_of_decMatch h
  rw [rotation, if_neg (by simp [hv]), if_neg hz]
  simp [if_neg hbang, jsNumber_decMatch h]

lemma floor_sub_half (w h : ℕ) :
    ⌊((w : ℚ) - (h : ℚ)) / 2⌋ = ((w : ℤ) - (h : ℤ)) / 2 := by
  have e : ((w : ℚ) - (h : ℚ)) / 2 = (((w : ℤ) - (h : ℤ) : ℤ) : ℚ) / ((2 : ℕ) : ℚ) := by
    rw [show ((2 : ℕ) : ℚ) = 2 from by norm_num]
    push_cast
    ring
  rw [e, Rat.floor_intCast_div_natCast]
  norm_num

lemma regionSquare_eval (w h : ℕ) (hne : w ≠ h) (p : Pipeline) :
    regionSquare (mkSt w h p) =
      { mkSt w h p with pipeline := (p.extractOp (.num (squareLeft w h))
          (.num (squareTop w h)) (.num ((min w h : ℕ) : ℚ))
          (.num ((min w h : ℕ) : ℚ))) } := by
  have hq : ((w : ℚ)) ≠ ((h : ℚ)) := by exact_mod_cast hne
  have hm : min ((w : ℚ)) ((h : ℚ)) = ((min w h : ℕ) : ℚ) := (Nat.cast_min w h).symm
  have hl : (if ((w : ℚ)) > ((h : ℚ)) then ((|⌊(((w : ℚ)) - ((h : ℚ))) / 2⌋| : ℤ) : ℚ) else 0) =
      squareLeft w h := by
    rcases lt_or_gt_of_ne hne with hlt | hlt
    · rw [if_neg (by exact_mod_cast not_lt.mpr hlt.le), squareLeft,
        if_neg (by omega)]
    · have habs : |((w : ℤ) - (h : ℤ)) / 2| = (((w - h) / 2 : ℕ) : ℤ) := by
        rw [Int.abs_eq_natAbs]
        omega
      rw [if_pos (by exact_mod_cast hlt), floor_sub_half, habs, squareLeft,
        if_pos hlt]
      norm_cast
  have ht : (if ((w : ℚ)) > ((h : ℚ)) then 0 else ((|⌊(((w : ℚ)) - ((h : ℚ))) / 2⌋| : ℤ) : ℚ)) =
      squareTop w h := by
    rcases lt_or_gt_of_ne hne with hlt | hlt
    · have habs : |((w : ℤ) - (h : ℤ)) / 2| = (((h - w + 1) / 2 : ℕ) : ℤ) := by
        rw [Int.abs_eq_natAbs]
        omega
      rw [if_neg (by exact_mod_cast not_lt.mpr hlt.le), floor_sub_half, habs,
        squareTop, if_neg (by omega)]
      norm_cast
    · rw [if_pos (by exact_mod_cast hlt), squareTop, if_pos hlt]
  simp only [regionSquare, mkSt, if_neg hq, hl, ht, hm]

/-- C3 (amended): on current dimensions `w`×`h` with `w ≠ h`,
`region('square')` emits exactly one `extract` with
`width = height = min(w, h)`, placed at `{left: offset, top: 0}` with
`offset = ⌊(w − h)/2⌋` when `w > h`, and at `{left: 0, top: offset}` with
`offset = ⌈(h − w)/2⌉ = (h − w + 1)/2` when `h > w` (the code takes the
magnitude of a floor of a negative value, which rounds up); when `w = h`
it emits nothing.  On a 200×100 image it emits
`extract({left: 50, top: 0, width: 100, height: 100})` as claimed. -/
theorem c3_square_amended (w h : ℕ) (p : Pipeline) :
    (w = h → (region ("square".toList) (mkSt w h p)).2 = none ∧
      (region ("square".toList) (mkSt w h p)).1.pipeline.directives =
        p.directives) ∧
    (w ≠ h → (region ("square".toList) (mkSt w h p)).2 = none ∧
      (region ("square".toList) (mkSt w h p)).1.pipeline.directives =
        p.directives ++
          [.extract (.num (squareLeft w h)) (.num (squareTop w h))
            (.num ((min w h : ℕ) : ℚ)) (.num ((min w h : ℕ) : ℚ))]) := by
  have hval : validatorTest .region ("square".toList) = true := by decide
  have hfull : ("square".toList : Str) ≠ "full".toList := by decide
  constructor
  · rintro rfl
    have hid : regionSquare (mkSt w w p) = mkSt w w p := by
      simp [regionSquare, mkSt]
    rw [region, if_neg (by rw [hval]; decide), if_neg hfull, if_pos rfl, hid]
    exact ⟨rfl, rfl⟩
  · intro hne
    have hev := regionSquare_eval w h hne p
    rw [region, if_neg (by rw [hval]; decide), if_neg hfull, if_pos rfl, hev]
    exact ⟨rfl, by simp [updateDims, Pipeline.extractOp]⟩

/-- C3 witness: the amended statement at 200×100 — one extract directive
`extract({left: 50, top: 0, width: 100, height: 100})` and no error. -/
theorem c3_witness :
    (region ("square".toList) (mkSt 200 100 Pipeline.init)).2 = none ∧
    (region ("square".toList) (mkSt 200 100 Pipeline.init)).1.pipeline.directives =
      Pipeline.init.directives ++
        [.extract (.num (squareLeft 200 100)) (.num (squareTop 200 100))
          (.num ((min 200 100 : ℕ) : ℚ)) (.num ((min 200 100 : ℕ) : ℚ))] ∧
    squareLeft 200 100 = 50 ∧ squareTop 200 100 = 0 ∧
      ((min 200 100 : ℕ) : ℚ) = 100 := by
  obtain ⟨h1, h2⟩ := (c3_square_amended 200 100 Pipeline.init).2 (by decide)
  exact ⟨h1, h2, by decide, by decide, by decide⟩

/-- C8: `rotation('0')` emits no directive; for every value of the
declared rotation grammar other than the literal `'0'`, a leading `!`
makes the call emit `flipHorizontal()` strictly before
`rotate(degrees)` where `degrees` is the decimal value after the `!`,
and without a leading `!` the call emits only `rotate(degrees)`. -/
theorem c8_rotation_flip_order (rest : Str) (h : decMatch rest = true)
    (st : St) :
    rotation ('!' :: rest) st =
      ({ st with pipeline := ⟨st.pipeline.directives ++
          [.flipHorizontal, .rotate (decValue rest)], st.pipeline.widthPre,
          st.pipeline.heightPre⟩ }, none) ∧
    (rest ≠ ['0'] → rotation rest st =
      ({ st with pipeline := st.pipeline.push (.rotate (decValue rest)) },
        none)) ∧
    rotation (['0'] : Str) st = (st, none) :=
  ⟨rotation_bang_eval h st, fun hz => rotation_plain_eval h hz st, by
    rw [rotation, if_neg (by decide), if_pos rfl]⟩

/-- C8 witness: `rotation('!90')` emits `flipHorizontal()` followed by
`rotate(90)`; `rotation('90')` emits only `rotate(90)`; `rotation('0')`
emits nothing. -/
theorem c8_witness :
    rotation ("!90".toList) (mkSt 200 100 Pipeline.init) =
      (⟨⟨.num 200, .num 100⟩,
        ⟨[.flipHorizontal, .rotate 90], .num (-1), .num (-1)⟩⟩, none) ∧
    rotation ("90".toList) (mkSt 200 100 Pipeline.init) =
      (⟨⟨.num 200, .num 100⟩, ⟨[.rotate 90], .num (-1), .num (-1)⟩⟩, none) ∧
    rotation (['0'] : Str) (mkSt 200 100 Pipeline.init) =
      (mkSt 200 100 Pipeline.init, none) := by
  obtain ⟨h1, h2, h3⟩ := c8_rotation_flip_order ("90".toList) (by decide)
    (mkSt 200 100 Pipeline.init)
  exact ⟨h1, h2 (by decide), h3⟩

lemma sizeVal_digits {s : Str} (h : digitsOnly s = true) :
    sizeVal s = JsVal.num ((digitsToNat s : ℚ)) := by
  rw [sizeVal, if_neg (by simp [List.isEmpty_iff, (digitsOnly_iff.mp h).1]),
    parseVal_digits h]

lemma sizeVal_nil : sizeVal ([] : Str) = JsVal.null := rfl

lemma sizeWH_eval {v : Str} {w h : JsVal} (hbang : v.take 1 ≠ ['!'])
    (hsplit : (splitComma v).map sizeVal = [w, h]) (st : St) :
    sizeWH v st =
      if w = JsVal.num 0 ∨ h = JsVal.num 0 then
        (st, some ⟨"Resize width and height must both be > 0".toList⟩)
      else
        ({ st with pipeline := st.pipeline.push (.resize w h .cover) },
          none) := by
  have hb : (v.take 1 = ['!']) = False := eq_false hbang
  simp only [sizeWH, hb, if_false, hsplit, List.getD_cons_zero,
    List.getD_cons_succ]

lemma sizeWH_bang_eval {v : Str} {w h : JsVal}
    (hsplit : (splitComma v).map sizeVal = [w, h]) (st : St) :
    sizeWH ('!' :: v) st =
      if w = JsVal.num 0 ∨ h = JsVal.num 0 then
        (st, some ⟨"Resize width and height must both be > 0".toList⟩)
      else
        ({ st with pipeline := st.pipeline.push (.resize w h .inside) },
          none) := by
  have ht : (('!' :: v : Str).take 1 = ['!']) = True := by simp
  simp only [sizeWH, ht, if_true, List.drop_succ_cons, List.drop_zero,
    hsplit, List.getD_cons_zero, List.getD_cons_succ]

lemma size_dispatch {v : Str} (hval : validatorTest .size v = true)
    (hfull : v ≠ "full".toList) (hmax : v ≠ "max".toList)
    (hcap : sizePctCapture v = none) (st : St) :
    size v st = sizeWH v st := by
  rw [size, if_neg (by simp [hval]), if_neg (not_or.mpr ⟨hfull, hmax⟩), hcap]

/-- C6: the explicit size forms — `I,` emits
`resize({width: I, height: null, fit: cover})`, `,I` emits
`resize({width: null, height: I, fit: cover})`, `W,H` emits
`resize({width: W, height: H, fit: cover})`, and a leading `!` turns the
fit into `inside`; the call fails with the zero-size error exactly when
an explicitly given dimension is 0, and emits exactly one resize
directive otherwise. -/
theorem c6_size_explicit_forms (a b : Str) (ha : digitsOnly a = true)
    (hb : digitsOnly b = true) (st : St) :
    (size (a ++ [',']) st =
      if digitsToNat a = 0 then
        (st, some ⟨"Resize width and height must both be > 0".toList⟩)
      else
        ({ st with pipeline := (st.pipeline.push
            (.resize (.num (digitsToNat a)) .null .cover)) }, none)) ∧
    (size (',' :: b) st =
      if digitsToNat b = 0 then
        (st, some ⟨"Resize width and height must both be > 0".toList⟩)
      else
        ({ st with pipeline := (st.pipeline.push
            (.resize .null (.num (digitsToNat b)) .cover)) }, none)) ∧
    (size (a ++ ',' :: b) st =
      if digitsToNat a = 0 ∨ digitsToNat b = 0 then
        (st, some ⟨"Resize width and height must both be > 0".toList⟩)
      else
        ({ st with pipeline := (st.pipeline.push
            (.resize (.num (digitsToNat a)) (.num (digitsToNat b))
              .cover)) }, none)) ∧
    (size ('!' :: (a ++ ',' :: b)) st =
      if digitsToNat a = 0 ∨ digitsToNat b = 0 then
        (st, some ⟨"Resize width and height must both be > 0".toList⟩)
      else
        ({ st with pipeline := (st.pipeline.push
            (.resize (.num (digitsToNat a)) (.num (digitsToNat b))
              .inside)) }, none)) := by
  obtain ⟨hane, haall⟩ := digitsOnly_iff.mp ha
  obtain ⟨x, xs, hax⟩ := List.exists_cons_of_ne_nil hane
  have hdx : x.isDigit = true := haall x (by simp [hax])
  have hsp1 : splitComma (a ++ [',']) = [a, []] := by
    rw [show (a ++ [','] : Str) = a ++ ',' :: [] from rfl,
      splitComma_append (digits_nocomma ha)]
    rfl
  have hsp2 : splitComma (',' :: b) = [[], b] := by
    rw [show splitComma (',' :: b) = [] :: splitComma b from rfl,
      splitComma_nocomma (digits_nocomma hb)]
  have hsp3 : splitComma (a ++ ',' :: b) = [a, b] := by
    rw [splitComma_append (digits_nocomma ha),
      splitComma_nocomma (digits_nocomma hb)]
  have hcons1 : (a ++ [','] : Str) = x :: (xs ++ [',']) := by simp [hax]
  have hcons3 : (a ++ ',' :: b : Str) = x :: (xs ++ ',' :: b) := by simp [hax]
  have hmap1 : (splitComma (a ++ [','])).map sizeVal =
      [JsVal.num ((digitsToNat a : ℚ)), JsVal.null] := by
    rw [hsp1]
    simp [sizeVal_digits ha, sizeVal_nil]
  have hmap2 : (splitComma (',' :: b)).map sizeVal =
      [JsVal.null, JsVal.num ((digitsToNat b : ℚ))] := by
    rw [hsp2]
    simp [sizeVal_digits hb, sizeVal_nil]
  have hmap3 : (splitComma (a ++ ',' :: b)).map sizeVal =
      [JsVal.num ((digitsToNat a : ℚ)), JsVal.num ((digitsToNat b : ℚ))] := by
    rw [hsp3]
    simp [sizeVal_digits ha, sizeVal_digits hb]
  have hval1 : validatorTest .size (a ++ [',']) = true := by
    simp [validatorTest, sizeValid, hsp1, ha]
  have hval2 : validatorTest .size (',' :: b) = true := by
    simp [validatorTest, sizeValid, hsp2, hb]
  have hval3 : validatorTest .size (a ++ ',' :: b) = true := by
    simp [validatorTest, sizeValid, hsp3, ha, hb]
  have hval4 : validatorTest .size ('!' :: (a ++ ',' :: b)) = true := by
    simp [validatorTest, sizeValid, hsp3, ha, hb]
  have hxne : ∀ {y : Char}, y.isDigit = false → x ≠ y := by
    intro y hy he
    rw [he] at hdx
    rw [hdx] at hy
    cases hy
  have hfull1 : (a ++ [','] : Str) ≠ "full".toList := by
    rw [hcons1]; exact cons_ne_of_head (hxne (by decide))
  have hmax1 : (a ++ [','] : Str) ≠ "max".toList := by
    rw [hcons1]; exact cons_ne_of_head (hxne (by decide))
  have hfull2 : (',' :: b : Str) ≠ "full".toList :=
    cons_ne_of_head (by decide)
  have hmax2 : (',' :: b : Str) ≠ "max".toList :=
    cons_ne_of_head (by decide)
  have hfull3 : (a ++ ',' :: b : Str) ≠ "full".toList := by
    rw [hcons3]; exact cons_ne_of_head (hxne (by decide))
  have hmax3 : (a ++ ',' :: b : Str) ≠ "max".toList := by
    rw [hcons3]; exact cons_ne_of_head (hxne (by decide))
  have hfull4 : ('!' :: (a ++ ',' :: b) : Str) ≠ "full".toList :=
    cons_ne_of_head (by decide)
  have hmax4 : ('!' :: (a ++ ',' :: b) : Str) ≠ "max".toList :=
    cons_ne_of_head (by decide)
  have hcap1 : sizePctCapture (a ++ [',']) = none := by
    rw [sizePctCapture, if_neg]
    rw [hcons1, List.take_succ_cons]
    exact cons_ne_of_head (hxne (by decide))
  have hcap2 : sizePctCapture (',' :: b) = none := by
    rw [sizePctCapture, if_neg]
    rw [List.take_succ_cons]
    exact cons_ne_of_head (by decide)
  have hcap3 : sizePctCapture (a ++ ',' :: b) = none := by
    rw [sizePctCapture, if_neg]
    rw [hcons3, List.take_succ_cons]
    exact cons_ne_of_head (hxne (by decide))
  have hcap4 : sizePctCapture ('!' :: (a ++ ',' :: b)) = none := by
    rw [sizePctCapture, if_neg]
    rw [List.take_succ_cons]
    exact cons_ne_of_head (by decide)
  have hbang1 : (a ++ [','] : Str).take 1 ≠ ['!'] := by
    rw [hcons1, List.take_succ_cons, List.take_zero]
    exact cons_ne_of_head (hxne (by decide))
  have hbang2 : (',' :: b : Str).take 1 ≠ ['!'] := by
    rw [List.take_succ_cons, List.take_zero]
    exact cons_ne_of_head (by decide)
  have hbang3 : (a ++ ',' :: b : Str).take 1 ≠ ['!'] := by
    rw [hcons3, List.take_succ_cons, List.take_zero]
    exact cons_ne_of_head (hxne (by decide))
  refine ⟨?_, ?_, ?_, ?_⟩
  · rw [size_dispatch hval1 hfull1 hmax1 hcap1, sizeWH_eval hbang1 hmap1]
    have hc : (JsVal.num ((digitsToNat a : ℚ)) = JsVal.num 0 ∨
        JsVal.null = JsVal.num 0) ↔ digitsToNat a = 0 := by
      simp [Nat.cast_eq_zero]
    simp only [hc]
  · rw [size_dispatch hval2 hfull2 hmax2 hcap2, sizeWH_eval hbang2 hmap2]
    have hc : (JsVal.null = JsVal.num 0 ∨
        JsVal.num ((digitsToNat b : ℚ)) = JsVal.num 0) ↔ digitsToNat b = 0 := by
      simp [Nat.cast_eq_zero]
    simp only [hc]
  · rw [size_dispatch hval3 hfull3 hmax3 hcap3, sizeWH_eval hbang3 hmap3]
    have hc : (JsVal.num ((digitsToNat a : ℚ)) = JsVal.num 0 ∨
        JsVal.num ((digitsToNat b : ℚ)) = JsVal.num 0) ↔
        (digitsToNat a = 0 ∨ digitsToNat b = 0) := by
      simp [Nat.cast_eq_zero]
    simp only [hc]
  · rw [size_dispatch hval4 hfull4 hmax4 hcap4, sizeWH_bang_eval hmap3]
    have hc : (JsVal.num ((digitsToNat a : ℚ)) = JsVal.num 0 ∨
        JsVal.num ((digitsToNat b : ℚ)) = JsVal.num 0) ↔
        (digitsToNat a = 0 ∨ digitsToNat b = 0) := by
      simp [Nat.cast_eq_zero]
    simp only [hc]

/-- C6 witness: `size('50,')` emits `resize({width: 50, height: null,
fit: cover})`; `size(',50')` and `size('50,50')` emit cover resizes;
`size('!50,50')` emits `fit: inside`; and `size('0,')` fails with the
zero-size error. -/
theorem c6_witness :
    size ("50,".toList) (mkSt 200 100 Pipeline.init) =
      (⟨⟨.num 200, .num 100⟩,
        ⟨[.resize (.num 50) .null .cover], .num (-1), .num (-1)⟩⟩, none) ∧
    size (",50".toList) (mkSt 200 100 Pipeline.init) =
      (⟨⟨.num 200, .num 100⟩,
        ⟨[.resize .null (.num 50) .cover], .num (-1), .num (-1)⟩⟩, none) ∧
    size ("!50,50".toList) (mkSt 200 100 Pipeline.init) =
      (⟨⟨.num 200, .num 100⟩,
        ⟨[.resize (.num 50) (.num 50) .inside], .num (-1), .num (-1)⟩⟩,
          none) ∧
    size ("0,".toList) (mkSt 200 100 Pipeline.init) =
      (mkSt 200 100 Pipeline.init,
        some ⟨"Resize width and height must both be > 0".toList⟩) := by
  obtain ⟨h1, h2, h3, h4⟩ := c6_size_explicit_forms ("50".toList)
    ("50".toList) (by decide) (by decide) (mkSt 200 100 Pipeline.init)
  obtain ⟨g1, _, _, _⟩ := c6_size_explicit_forms ("0".toList) ("50".toList)
    (by decide) (by decide) (mkSt 200 100 Pipeline.init)
  rw [if_neg (by decide)] at h1 h2 h4
  rw [if_pos (by decide)] at g1
  exact ⟨h1, h2, h4, g1⟩

/-- C1: the claim — `validate` accepts exactly the declared grammar, and
for rotation any string with a non-dot character in the numeric part is
rejected — is false on the code: the compiled float pattern's unescaped
dot matches any character, so the rotation validator accepts `1x5`,
which the declared grammar (optional `!`, digits, optionally a literal
dot and digits) rejects. -/
theorem c1_rotation_regex_accepts_nondecimal :
    validatorTest .rotation ("1x5".toList) = true ∧
      rotationDeclared ("1x5".toList) = false := by decide

unseal Rat.add Rat.mul Rat.inv Rat.sub Rat.ofScientific in
/-- C2: the claim — a failing parameter call emits no directive, and in
particular a failing rotation call on a grammar-accepted value emits no
`flipHorizontal()` — is false on the code: `!1x5` passes the rotation
grammar, the flop is emitted at once, and only then does `Number` yield
`NaN` and abort the call, leaving the flop in the pipeline. -/
theorem c2_failing_rotation_emits_flip :
    (rotation ("!1x5".toList) (mkSt 200 100 Pipeline.init)).1.pipeline.directives =
        [Directive.flipHorizontal] ∧
      (rotation ("!1x5".toList) (mkSt 200 100 Pipeline.init)).2 =
        some ⟨"Invalid rotation value: !1x5".toList⟩ := by decide

unseal Rat.add Rat.mul Rat.inv Rat.sub Rat.ofScientific in
/-- C3 counterexample: on a 100×103 image, `region('square')` emits
`extract` with `top = 2` — `Math.abs(Math.floor((100 − 103)/2))`, the
magnitude of a floor of a negative number — not the claimed
`floor(|100 − 103|/2) = 1`. -/
theorem c3_square_offset_counterexample :
    (region ("square".toList) (mkSt 100 103 Pipeline.init)).1.pipeline.directives =
        [Directive.extract (.num 0) (.num 2) (.num 100) (.num 100)] ∧
      (region ("square".toList) (mkSt 100 103 Pipeline.init)).1.pipeline.directives ≠
        [Directive.extract (.num 0) (.num ((⌊(|(100 : ℚ) - 103|) / 2⌋ : ℤ) : ℚ))
          (.num 100) (.num 100)] := by decide

unseal Rat.add Rat.mul Rat.inv Rat.sub Rat.ofScientific in
/-- C4: the claim — a grammar-accepted `pct:X,Y,W,H` region converts all
four decimal percentages to pixels — is false on the code: the dispatch
capture `/^pct:([\d,]+)/` stops at the first dot, so on a 200×100 image
`pct:10.5,10,50,50` captures only `10` and the call emits
`extract(20, NaN, NaN, NaN)` instead of the claimed
`extract(round(200·10.5/100), 10, 100, 50) = extract(21, 10, 100, 50)`. -/
theorem c4_region_pct_decimal_broken :
    (region ("pct:10.5,10,50,50".toList) (mkSt 200 100 Pipeline.init)).2 = none ∧
      (region ("pct:10.5,10,50,50".toList) (mkSt 200 100 Pipeline.init)).1.pipeline.directives =
        [Directive.extract (.num 20) .nan .nan .nan] ∧
      qRound ((200 : ℚ) * ((21 / 2) / 100)) = 21 := by decide

unseal Rat.add Rat.mul Rat.inv Rat.sub Rat.ofScientific in
/-- C7: the claim — a grammar-accepted `pct:P` size computes
`width = round(dims.width·P/100)` — is false on the code: the dispatch
capture `/^pct:([\d]+)/` stops at the dot, so with tracked width 200 the
value `pct:50.5` captures only `50` and emits `resize` with width
`round(200·50/100) = 100` instead of the claimed
`round(200·50.5/100) = 101`. -/
theorem c7_size_pct_decimal_broken :
    (size ("pct:50.5".toList) (mkSt 200 100 Pipeline.init)).2 = none ∧
      (size ("pct:50.5".toList) (mkSt 200 100 Pipeline.init)).1.pipeline.directives =
        [Directive.resize (.num 100) .null .cover] ∧
      qRound ((200 : ℚ) * ((101 / 2) / 100)) = 101 := by decide

unseal Rat.add Rat.mul Rat.inv Rat.sub Rat.ofScientific in
/-- C9: the zero-rotation short-circuit applies only to the exact string
`'0'`: `!0` emits `flipHorizontal()` followed by `rotate(0)`, and `0.0`
emits `rotate(0)`. -/
theorem c9_zero_shortcircuit_literal_only :
    rotation ("!0".toList) (mkSt 200 100 Pipeline.init) =
        (⟨⟨.num 200, .num 100⟩,
          ⟨[.flipHorizontal, .rotate 0], .num (-1), .num (-1)⟩⟩, none) ∧
      rotation ("0.0".toList) (mkSt 200 100 Pipeline.init) =
        (⟨⟨.num 200, .num 100⟩, ⟨[.rotate 0], .num (-1), .num (-1)⟩⟩, none) := by
  decide

end IIIF
